import Mathlib

/-!
Shallow embedding of the core of `src/streamlit_app.py` (OptionsFlowTracker):
the snapshot store, the snapshot builder `fetch_options_data`, the
volume-change detector `find_unusual_volume`, the background scheduler loop
`background_fetch_job`, and the cache-validity predicate.

Dataframes are lists of rows; numeric columns are rationals (the program's
floats are only ever compared and subtracted, never rounded); NaN cells
produced by the outer join are `Option.none`; exceptions are `Except`.
-/

namespace OptionsFlow

/-- Option contract side, the `Type` column: `"Call"` or `"Put"`. -/
inductive CType
  | Call
  | Put
deriving DecidableEq

/-- One row of the options dataframe assembled by `fetch_options_data`
(columns `Symbol`, `Type`, `Expiry`, `Strike`, `Volume`, `Bid`, `Ask`,
`current_price`; `current_price` is `None` when neither a direct quote nor a
daily-history close was available). -/
structure Row where
  symbol : String
  ctype : CType
  expiry : String
  strike : ℚ
  volume : ℚ
  bid : ℚ
  ask : ℚ
  price : Option ℚ
deriving DecidableEq

/-- The join key `["Symbol", "Type", "Expiry", "Strike"]`. -/
structure Key where
  symbol : String
  ctype : CType
  expiry : String
  strike : ℚ
deriving DecidableEq

/-- The contract key of a row. -/
def Row.key (r : Row) : Key :=
  ⟨r.symbol, r.ctype, r.expiry, r.strike⟩

/-- One row of `pd.merge(new_df, old_df, on=keys, how="outer", suffixes=("", "_old"))`:
`left` is the matching `new_df` row (`none` when the contract occurs only in
`old_df`, so the unsuffixed value columns are NaN), `right` the matching
`old_df` row (`none` when the contract occurs only in `new_df`). -/
structure JoinedRow where
  left : Option Row
  right : Option Row
deriving DecidableEq

/-- Full outer join on the contract key, in pandas row order for
`sort=False`: the left rows in order, each expanded by all key-equal right
rows (in right order) or kept with a NaN right side when unmatched, followed
by the right-only rows in order. -/
def outerMerge (new_df old_df : List Row) : List JoinedRow :=
  (new_df.flatMap fun n =>
    let ms := old_df.filter fun o => decide (o.key = n.key)
    if ms.isEmpty then [⟨some n, none⟩] else ms.map fun o => ⟨some n, some o⟩) ++
  ((old_df.filter fun o => !(new_df.any fun n => decide (n.key = o.key))).map
    fun o => ⟨none, some o⟩)

/-- The `Volume` column after `merged["Volume"].fillna(0)`. -/
def JoinedRow.volume (j : JoinedRow) : ℚ :=
  match j.left with
  | some n => n.volume
  | none => 0

/-- The `Volume_old` column after `merged["Volume_old"].fillna(0)`. -/
def JoinedRow.volumeOld (j : JoinedRow) : ℚ :=
  match j.right with
  | some o => o.volume
  | none => 0

/-- The `Volume_Diff` column: `merged["Volume"] - merged["Volume_old"]`. -/
def JoinedRow.volumeDiff (j : JoinedRow) : ℚ :=
  j.volume - j.volumeOld

/-- Value of the `Volume_Ratio` column: a finite float or `float("inf")`. -/
inductive RatioVal
  | fin (q : ℚ)
  | inf
deriving DecidableEq

/-- `ratio_func`: `Volume / Volume_old` when `Volume_old > 0`, else
`float("inf")`. -/
def JoinedRow.volumeRatio (j : JoinedRow) : RatioVal :=
  if 0 < j.volumeOld then .fin (j.volume / j.volumeOld) else .inf

/-- The float comparison `Volume_Ratio >= ratio_thr` for a finite threshold:
`inf` exceeds every finite threshold. -/
def RatioVal.geQ : RatioVal → ℚ → Bool
  | .inf, _ => true
  | .fin q, t => decide (t ≤ q)

/-- The boolean `condition` of `find_unusual_volume`:
`(Volume_Ratio >= ratio_thr) & (Volume_Diff >= diff_thr)`. -/
def unusualCond (ratio_thr diff_thr : ℚ) (j : JoinedRow) : Bool :=
  j.volumeRatio.geQ ratio_thr && decide (diff_thr ≤ j.volumeDiff)

/-- Insertion step of a stable descending sort on the key `f`: `x` is placed
before the first element whose key is strictly smaller than `f x`, hence after
every earlier element with an equal or larger key. -/
def insertDescBy {α : Type} (f : α → ℚ) (x : α) : List α → List α
  | [] => [x]
  | y :: ys => if f y < f x then x :: y :: ys else y :: insertDescBy f x ys

/-- Stable descending sort on the key `f`, modelling
`DataFrame.sort_values(col, ascending=False)`.  (pandas argsorts the
reversed frame ascending and reverses the result, which on frames small
enough that numpy's default quicksort degenerates to insertion sort is
exactly this stable descending sort; on larger frames the order among equal
keys is an unspecified artifact of the unstable quicksort, and no theorem
below depends on it.) -/
def sortDescBy {α : Type} (f : α → ℚ) : List α → List α
  | [] => []
  | x :: xs => insertDescBy f x (sortDescBy f xs)

/-- `find_unusual_volume(new_df, old_df, ratio_thr, diff_thr)`: empty when
either input frame is empty; otherwise the outer-joined rows passing
`condition`, sorted by `Volume_Diff` descending. -/
def find_unusual_volume (new_df old_df : List Row) (ratio_thr diff_thr : ℚ) :
    List JoinedRow :=
  if new_df.isEmpty || old_df.isEmpty then []
  else
    sortDescBy JoinedRow.volumeDiff
      ((outerMerge new_df old_df).filter (unusualCond ratio_thr diff_thr))

/-! Basic facts about the stable descending sort. -/

theorem perm_insertDescBy {α : Type} (f : α → ℚ) (x : α) (l : List α) :
    List.Perm (insertDescBy f x l) (x :: l) := by
  induction l with
  | nil => simp [insertDescBy]
  | cons y ys ih =>
    by_cases h : f y < f x
    · simp [insertDescBy, h]
    · simp only [insertDescBy, if_neg h]
      exact (ih.cons y).trans (List.Perm.swap x y ys)

theorem perm_sortDescBy {α : Type} (f : α → ℚ) (l : List α) :
    List.Perm (sortDescBy f l) l := by
  induction l with
  | nil => simp [sortDescBy]
  | cons x xs ih =>
    exact (perm_insertDescBy f x (sortDescBy f xs)).trans (ih.cons x)

theorem mem_sortDescBy {α : Type} {f : α → ℚ} {a : α} {l : List α} :
    a ∈ sortDescBy f l ↔ a ∈ l :=
  (perm_sortDescBy f l).mem_iff

theorem sorted_insertDescBy {α : Type} (f : α → ℚ) (x : α) {l : List α}
    (h : l.Pairwise fun a b => f b ≤ f a) :
    (insertDescBy f x l).Pairwise fun a b => f b ≤ f a := by
  induction l with
  | nil => simp [insertDescBy]
  | cons y ys ih =>
    rcases List.pairwise_cons.mp h with ⟨hy, hys⟩
    by_cases hc : f y < f x
    · simp only [insertDescBy, if_pos hc]
      refine List.pairwise_cons.mpr ⟨?_, h⟩
      intro b hb
      rcases List.mem_cons.mp hb with rfl | hb
      · exact le_of_lt hc
      · exact (hy b hb).trans (le_of_lt hc)
    · simp only [insertDescBy, if_neg hc]
      refine List.pairwise_cons.mpr ⟨?_, ih hys⟩
      intro b hb
      rcases List.mem_cons.mp ((perm_insertDescBy f x ys).mem_iff.mp hb) with
        rfl | hb
      · exact not_lt.mp hc
      · exact hy b hb

theorem sorted_sortDescBy {α : Type} (f : α → ℚ) (l : List α) :
    (sortDescBy f l).Pairwise fun a b => f b ≤ f a := by
  induction l with
  | nil => simp [sortDescBy]
  | cons x xs ih => exact sorted_insertDescBy f x ih

/-! The membership characterisation of the detector's output. -/

theorem mem_find_unusual_volume {new_df old_df : List Row} {r d : ℚ}
    {j : JoinedRow} (hn : new_df ≠ []) (ho : old_df ≠ []) :
    j ∈ find_unusual_volume new_df old_df r d ↔
      j ∈ outerMerge new_df old_df ∧ unusualCond r d j = true := by
  unfold find_unusual_volume
  rw [if_neg (by simp [List.isEmpty_iff, hn, ho]), mem_sortDescBy,
    List.mem_filter]

/-- The scenario contract (AAPL, Call, 2024-01-19, 150) at previous volume 100. -/
def prevRow : Row :=
  ⟨"AAPL", .Call, "2024-01-19", 150, 100, 1, 2, some 150⟩

/-- The scenario contract at current volume 500. -/
def currRow500 : Row :=
  { prevRow with volume := 500 }

/-- The scenario contract at current volume 2500. -/
def currRow2500 : Row :=
  { prevRow with volume := 2500 }

/-- C1: a joined contract row appears in the output of `find_unusual_volume`
iff its volume ratio clears `ratio_thr` AND its volume delta clears
`diff_thr` (both required); the contract (AAPL, Call, 2024-01-19, 150) going
100 → 500 under thresholds 2.0 / 1000 is not flagged (delta 400 < 1000
despite ratio 5 ≥ 2), while 100 → 2500 is flagged with ratio 25 and delta
2400. -/
theorem unusual_iff_ratio_and_delta :
    (∀ (new_df old_df : List Row) (r d : ℚ) (j : JoinedRow),
        new_df ≠ [] → old_df ≠ [] →
        (j ∈ find_unusual_volume new_df old_df r d ↔
          j ∈ outerMerge new_df old_df ∧
            j.volumeRatio.geQ r = true ∧ d ≤ j.volumeDiff)) ∧
    find_unusual_volume [currRow500] [prevRow] 2 1000 = [] ∧
    find_unusual_volume [currRow2500] [prevRow] 2 1000 =
      [⟨some currRow2500, some prevRow⟩] ∧
    JoinedRow.volumeRatio ⟨some currRow2500, some prevRow⟩ = .fin 25 ∧
    JoinedRow.volumeDiff ⟨some currRow2500, some prevRow⟩ = 2400 := by
  refine ⟨?_, ?_, ?_, ?_, ?_⟩
  · intro new_df old_df r d j hn ho
    rw [mem_find_unusual_volume hn ho]
    simp [unusualCond, Bool.and_eq_true, decide_eq_true_eq, and_assoc]
  · norm_num [find_unusual_volume, outerMerge, currRow500, prevRow, Row.key,
      unusualCond, JoinedRow.volumeRatio, JoinedRow.volume,
      JoinedRow.volumeOld, JoinedRow.volumeDiff, RatioVal.geQ, sortDescBy,
      insertDescBy]
  · norm_num [find_unusual_volume, outerMerge, currRow2500, prevRow, Row.key,
      unusualCond, JoinedRow.volumeRatio, JoinedRow.volume,
      JoinedRow.volumeOld, JoinedRow.volumeDiff, RatioVal.geQ, sortDescBy,
      insertDescBy]
  · norm_num [currRow2500, prevRow, JoinedRow.volumeRatio, JoinedRow.volume,
      JoinedRow.volumeOld]
  · norm_num [currRow2500, prevRow, JoinedRow.volumeDiff, JoinedRow.volume,
      JoinedRow.volumeOld]

/-- Witness for `unusual_iff_ratio_and_delta`: its membership
characterisation instantiated at the concrete 100 → 2500 scenario. -/
theorem unusual_iff_ratio_and_delta_witness :
    (⟨some currRow2500, some prevRow⟩ : JoinedRow) ∈
        find_unusual_volume [currRow2500] [prevRow] 2 1000 ↔
      (⟨some currRow2500, some prevRow⟩ : JoinedRow) ∈
          outerMerge [currRow2500] [prevRow] ∧
        (JoinedRow.volumeRatio ⟨some currRow2500, some prevRow⟩).geQ 2 = true ∧
        (1000 : ℚ) ≤ JoinedRow.volumeDiff ⟨some currRow2500, some prevRow⟩ :=
  unusual_iff_ratio_and_delta.1 [currRow2500] [prevRow] 2 1000 _
    (List.cons_ne_nil _ _) (List.cons_ne_nil _ _)

/-! C3: contracts present only in the current snapshot. -/

/-- C3: a contract `c` present in the current snapshot with volume `V > 0`
whose key is absent from the (non-empty) previous snapshot gets
`Volume_Ratio = inf` and `Volume_Diff = V`, and its joined row is in the
output of `find_unusual_volume` iff `V ≥ diff_thr`, for every (finite)
`ratio_thr`. -/
theorem new_contract_infinite_ratio :
    ∀ (new_df old_df : List Row) (r d : ℚ) (c : Row),
      c ∈ new_df → 0 < c.volume → (∀ o ∈ old_df, o.key ≠ c.key) →
      old_df ≠ [] →
      JoinedRow.volumeRatio ⟨some c, none⟩ = .inf ∧
      JoinedRow.volumeDiff ⟨some c, none⟩ = c.volume ∧
      ((⟨some c, none⟩ : JoinedRow) ∈ find_unusual_volume new_df old_df r d ↔
        d ≤ c.volume) := by
  intro new_df old_df r d c hc hv hkey ho
  have hratio : JoinedRow.volumeRatio ⟨some c, none⟩ = .inf := by
    simp [JoinedRow.volumeRatio, JoinedRow.volumeOld]
  have hdiff : JoinedRow.volumeDiff ⟨some c, none⟩ = c.volume := by
    simp [JoinedRow.volumeDiff, JoinedRow.volume, JoinedRow.volumeOld]
  refine ⟨hratio, hdiff, ?_⟩
  have hn : new_df ≠ [] := fun h => by simp [h] at hc
  rw [mem_find_unusual_volume hn ho]
  have hmem : (⟨some c, none⟩ : JoinedRow) ∈ outerMerge new_df old_df := by
    unfold outerMerge
    apply List.mem_append_left
    apply List.mem_flatMap.mpr
    refine ⟨c, hc, ?_⟩
    have hf : (old_df.filter fun o => decide (o.key = c.key)) = [] :=
      List.filter_eq_nil_iff.mpr fun o hov => by simp [hkey o hov]
    simp [hf]
  simp [hmem, unusualCond, hratio, hdiff, RatioVal.geQ]

/-- A contract present only in the current snapshot, volume 2500. -/
def newOnlyRow : Row :=
  ⟨"AAPL", .Call, "2024-01-19", 155, 2500, 1, 2, some 150⟩

/-- Witness for `new_contract_infinite_ratio` at a concrete brand-new
contract of volume 2500 against threshold 1000. -/
theorem new_contract_infinite_ratio_witness :
    JoinedRow.volumeRatio ⟨some newOnlyRow, none⟩ = .inf ∧
    JoinedRow.volumeDiff ⟨some newOnlyRow, none⟩ = newOnlyRow.volume ∧
    ((⟨some newOnlyRow, none⟩ : JoinedRow) ∈
        find_unusual_volume [newOnlyRow] [prevRow] 2 1000 ↔
      (1000 : ℚ) ≤ newOnlyRow.volume) :=
  new_contract_infinite_ratio [newOnlyRow] [prevRow] 2 1000 newOnlyRow
    (by simp) (by norm_num [newOnlyRow]) (by decide) (List.cons_ne_nil _ _)

/-! C2: identical snapshots. -/

/-- A zero-volume row sharing its contract key with `rowK5000`. -/
def rowK0 : Row :=
  ⟨"SPY", .Put, "2024-02-16", 500, 0, 1, 2, some 500⟩

/-- A volume-5000 duplicate-key sibling of `rowK0`. -/
def rowK5000 : Row :=
  { rowK0 with volume := 5000 }

/-- C2 counterexample: with thresholds allowed by the claim (r = 1 ≥ 1,
d = 0 ≥ 0) an identical pair of snapshots produces a non-empty result (ratio
1 ≥ 1 and delta 0 ≥ 0 both pass), and even with r = 2, d = 1000 a snapshot
holding two rows of the same contract key with volumes 0 and 5000 flags the
cross-joined (5000, 0) pair. -/
theorem identical_snapshots_counterexample :
    find_unusual_volume [prevRow] [prevRow] 1 0 =
      [⟨some prevRow, some prevRow⟩] ∧
    find_unusual_volume [rowK0, rowK5000] [rowK0, rowK5000] 2 1000 =
      [⟨some rowK5000, some rowK0⟩] := by
  constructor
  · norm_num [find_unusual_volume, outerMerge, prevRow, Row.key,
      unusualCond, JoinedRow.volumeRatio, JoinedRow.volume,
      JoinedRow.volumeOld, JoinedRow.volumeDiff, RatioVal.geQ, sortDescBy,
      insertDescBy]
  · norm_num [find_unusual_volume, outerMerge, rowK0, rowK5000, Row.key,
      unusualCond, JoinedRow.volumeRatio, JoinedRow.volume,
      JoinedRow.volumeOld, JoinedRow.volumeDiff, RatioVal.geQ, sortDescBy,
      insertDescBy]

/-- Helper: under pairwise-distinct keys the key-filter singles out the row. -/
theorem filter_key_eq_self {l : List Row} {n : Row} (hn : n ∈ l)
    (hu : l.Pairwise fun a b => a.key ≠ b.key) :
    (l.filter fun o => decide (o.key = n.key)) = [n] := by
  induction l with
  | nil => cases hn
  | cons h t ih =>
    rcases List.pairwise_cons.mp hu with ⟨hh, ht⟩
    rcases List.mem_cons.mp hn with rfl | hn
    · have hrest : (t.filter fun o => decide (o.key = n.key)) = [] :=
        List.filter_eq_nil_iff.mpr fun a ha => by
          simp only [decide_eq_true_eq]
          exact fun e => hh a ha e.symm
      simp [List.filter_cons_of_pos, hrest]
    · rw [List.filter_cons_of_neg (by simp [hh n hn])]
      exact ih hn ht

/-- Helper: a flat map all of whose fibers are singletons is a map. -/
theorem flatMap_eq_map {α β : Type} {l : List α} {g : α → List β} {f : α → β}
    (h : ∀ x ∈ l, g x = [f x]) : l.flatMap g = l.map f := by
  induction l with
  | nil => simp
  | cons a t ih =>
    rw [List.flatMap_cons, h a (List.mem_cons_self a t),
      ih fun x hx => h x (List.mem_cons_of_mem a hx)]
    rfl

/-- Helper: joining a snapshot with pairwise-distinct keys against itself
matches every row exactly with itself. -/
theorem outerMerge_self {A : List Row}
    (hu : A.Pairwise fun a b => a.key ≠ b.key) :
    outerMerge A A = A.map fun n => ⟨some n, some n⟩ := by
  unfold outerMerge
  have h2 : (A.filter fun o => !(A.any fun n => decide (n.key = o.key))) = [] :=
    List.filter_eq_nil_iff.mpr fun o ho => by
      simp only [Bool.not_eq_true', List.any_eq_false, decide_eq_true_eq]
      exact fun hall => hall o ho rfl
  rw [flatMap_eq_map (f := fun n => (⟨some n, some n⟩ : JoinedRow))
      (fun n hn => by simp [filter_key_eq_self hn hu, List.isEmpty_iff]),
    h2]
  simp

/-- C2 (amended): for identical snapshots whose rows have pairwise-distinct
contract keys, the detector output is empty for every ratio threshold and
every strictly positive delta threshold (each row is matched only with
itself, so its delta 0 fails `d > 0`; the claim's allowance of `d = 0` and
of duplicate keys is refuted by `identical_snapshots_counterexample`). -/
theorem identical_snapshots_empty_amended :
    ∀ (A : List Row) (r d : ℚ), 0 < d →
      (A.Pairwise fun a b => a.key ≠ b.key) →
      find_unusual_volume A A r d = [] := by
  intro A r d hd hu
  unfold find_unusual_volume
  rcases eq_or_ne A [] with rfl | hA
  · simp
  · rw [if_neg (by simp [List.isEmpty_iff, hA]), outerMerge_self hu]
    have hfil : ((A.map fun n => (⟨some n, some n⟩ : JoinedRow)).filter
        (unusualCond r d)) = [] :=
      List.filter_eq_nil_iff.mpr fun j hj => by
        rcases List.mem_map.mp hj with ⟨n, _, rfl⟩
        simp [unusualCond, JoinedRow.volumeDiff, JoinedRow.volume,
          JoinedRow.volumeOld, not_le.mpr hd]
    rw [hfil]
    rfl

/-- Witness for `identical_snapshots_empty_amended`: a concrete two-row
snapshot with distinct keys compared against itself under thresholds 2 and
1000. -/
theorem identical_snapshots_empty_amended_witness :
    find_unusual_volume [prevRow, rowK0] [prevRow, rowK0] 2 1000 = [] :=
  identical_snapshots_empty_amended [prevRow, rowK0] 2 1000 (by norm_num)
    (by decide)

/-! The snapshot store (`options_snapshots` table). -/

/-- One persisted row of the `options_snapshots` table. -/
structure StoredRow where
  snapshotTime : String
  row : Row
deriving DecidableEq

/-- The append-only `options_snapshots` table, in insertion order. -/
abbrev Store := List StoredRow

/-- `store_snapshot(df, snapshot_time)`: a no-op on an empty frame, otherwise
appends every row of the frame tagged with the timestamp. -/
def store_snapshot (store : Store) (df : List Row) (snapshot_time : String) :
    Store :=
  if df.isEmpty then store
  else store ++ df.map fun r => ⟨snapshot_time, r⟩

/-- `SELECT MAX(snapshot_time) FROM options_snapshots`: `none` on an empty
table. -/
def maxSnapshotTime (store : Store) : Option String :=
  store.foldl (fun acc sr =>
    match acc with
    | none => some sr.snapshotTime
    | some t => some (max t sr.snapshotTime)) none

/-- `get_latest_snapshot_time()`: `row[0] if row and row[0] else None` — the
maximum timestamp, with both SQL NULL and the falsy empty string mapped to
`None`. -/
def get_latest_snapshot_time (store : Store) : Option String :=
  match maxSnapshotTime store with
  | none => none
  | some t => if t = "" then none else some t

/-- `get_all_snapshots()`: the full historical log. -/
def get_all_snapshots (store : Store) : List StoredRow :=
  store

/-- `get_snapshot_data(snapshot_time)`: the contract rows recorded under the
given timestamp. -/
def get_snapshot_data (store : Store) (snapshot_time : String) : List Row :=
  (store.filter fun sr => decide (sr.snapshotTime = snapshot_time)).map
    fun sr => sr.row

/-- C8: appending an empty snapshot to the store is a no-op, so
`get_latest_snapshot_time` and `get_all_snapshots` are unchanged by it. -/
theorem empty_snapshot_append_noop :
    ∀ (store : Store) (t : String),
      store_snapshot store [] t = store ∧
      get_latest_snapshot_time (store_snapshot store [] t) =
        get_latest_snapshot_time store ∧
      get_all_snapshots (store_snapshot store [] t) =
        get_all_snapshots store := by
  intro store t
  exact ⟨rfl, rfl, rfl⟩

/-! C5: no deduplication happens before storage. -/

/-- C5 counterexample: storing a fetched frame containing the same contract
row twice yields a stored snapshot in which (symbol, type, expiry, strike)
does not uniquely identify a contract. -/
theorem snapshot_key_unique_counterexample :
    ¬ ((get_snapshot_data
          (store_snapshot [] [prevRow, prevRow] "2024-01-01 00:00:00")
          "2024-01-01 00:00:00").Pairwise fun a b => a.key ≠ b.key) := by
  decide

/-- C5 (amended): `store_snapshot` performs no deduplication — it appends the
fetched frame verbatim, so the contract key is unique within a stored
snapshot only when the fetched frame itself contains no duplicate keys (the
only `drop_duplicates` in the program is in the display path). -/
theorem store_snapshot_no_dedup :
    ∀ (store : Store) (df : List Row) (t : String), df ≠ [] →
      get_snapshot_data (store_snapshot store df t) t =
        get_snapshot_data store t ++ df := by
  intro store df t hdf
  unfold store_snapshot get_snapshot_data
  rw [if_neg (by simp [List.isEmpty_iff, hdf])]
  have h1 : ((df.map fun r => (⟨t, r⟩ : StoredRow)).filter
      fun sr => decide (sr.snapshotTime = t)) = df.map fun r => ⟨t, r⟩ :=
    List.filter_eq_self.mpr fun sr hsr => by
      rcases List.mem_map.mp hsr with ⟨r, _, rfl⟩
      simp
  rw [List.filter_append, List.map_append, h1, List.map_map]
  exact congrArg _ (List.map_id df)

/-- Witness for `store_snapshot_no_dedup`: the duplicated frame of the
counterexample is stored verbatim. -/
theorem store_snapshot_no_dedup_witness :
    get_snapshot_data
        (store_snapshot [] [prevRow, prevRow] "2024-01-01 00:00:00")
        "2024-01-01 00:00:00" =
      get_snapshot_data [] "2024-01-01 00:00:00" ++ [prevRow, prevRow] :=
  store_snapshot_no_dedup [] [prevRow, prevRow] "2024-01-01 00:00:00"
    (List.cons_ne_nil _ _)

/-! The snapshot builder `fetch_options_data`. -/

/-- One quote row of an option-chain frame: `strike`, `volume`, `bid`, `ask`
as read through `row.get(..., 0)`. -/
structure ChainRow where
  strike : ℚ
  volume : ℚ
  bid : ℚ
  ask : ℚ
deriving DecidableEq

/-- `ticker.option_chain(expiry)` for one expiry: the calls and puts frames. -/
structure ExpiryChain where
  expiry : String
  calls : List ChainRow
  puts : List ChainRow
deriving DecidableEq

/-- Everything `fetch_options_data` reads about one symbol:
`ticker.info.get("regularMarketPrice")`, the closes of
`ticker.history(period="1d")`, and the chains of `ticker.options`. -/
structure SymbolData where
  regularMarketPrice : Option ℚ
  histCloses : List ℚ
  chains : List ExpiryChain
deriving DecidableEq

/-- The external quote source, per symbol either the symbol's data or the
text of the exception raised while fetching it. -/
abbrev QuoteSource := String → Except String SymbolData

/-- Resolution of `current_price`: the direct quote, else the last daily
close when the one-day history is non-empty, else `None`. -/
def SymbolData.currentPrice (d : SymbolData) : Option ℚ :=
  match d.regularMarketPrice with
  | some p => some p
  | none => d.histCloses.getLast?

/-- The rows appended to `all_data` for one symbol: for each expiry in
listing order, the call rows then the put rows. -/
def symbolRows (symbol : String) (d : SymbolData) : List Row :=
  d.chains.flatMap fun ch =>
    (ch.calls.map fun r =>
      ⟨symbol, .Call, ch.expiry, r.strike, r.volume, r.bid, r.ask,
        d.currentPrice⟩) ++
    (ch.puts.map fun r =>
      ⟨symbol, .Put, ch.expiry, r.strike, r.volume, r.bid, r.ask,
        d.currentPrice⟩)

/-- A recorded `st.warning` call: the symbol and the exception text. -/
abbrev Warning := String × String

/-- One iteration of the symbol loop: an exception anywhere in the body is
caught and recorded as a warning, and the loop continues; a symbol listing
no expiries is skipped (`continue`) without a warning. -/
def fetchStep (src : QuoteSource) (acc : List Row × List Warning)
    (symbol : String) : List Row × List Warning :=
  match src symbol with
  | .error e => (acc.1, acc.2 ++ [(symbol, e)])
  | .ok d =>
    if d.chains.isEmpty then acc
    else (acc.1 ++ symbolRows symbol d, acc.2)

/-- `if not df.empty: df.sort_values("Volume", ascending=False)`. -/
def maybeSortByVolume (df : List Row) : List Row :=
  if df.isEmpty then df else sortDescBy Row.volume df

/-- `fetch_options_data(symbols)`: the symbol loop, then the
volume-descending sort of a non-empty result frame; returns the frame and
the recorded warnings. -/
def fetch_options_data (src : QuoteSource) (symbols : List String) :
    List Row × List Warning :=
  let acc := symbols.foldl (fetchStep src) ([], [])
  (maybeSortByVolume acc.1, acc.2)

/-- The rows a single symbol contributes: none on a fetch error and none
when no expiries are listed. -/
def okRows (src : QuoteSource) (symbol : String) : List Row :=
  match src symbol with
  | .error _ => []
  | .ok d => if d.chains.isEmpty then [] else symbolRows symbol d

/-- The warnings a single symbol contributes: exactly one on a fetch error. -/
def warningsOf (src : QuoteSource) (symbol : String) : List Warning :=
  match src symbol with
  | .error e => [(symbol, e)]
  | .ok _ => []

theorem foldl_fetchStep (src : QuoteSource) :
    ∀ (symbols : List String) (acc : List Row × List Warning),
      symbols.foldl (fetchStep src) acc =
        (acc.1 ++ symbols.flatMap (okRows src),
         acc.2 ++ symbols.flatMap (warningsOf src)) := by
  intro symbols
  induction symbols with
  | nil => intro acc; simp
  | cons s t ih =>
    intro acc
    rw [List.foldl_cons, ih]
    cases h : src s with
    | error e => simp [fetchStep, okRows, warningsOf, h]
    | ok d =>
      by_cases hc : d.chains.isEmpty <;>
        simp [fetchStep, okRows, warningsOf, h, hc]

theorem maybeSortByVolume_eq (df : List Row) :
    maybeSortByVolume df = sortDescBy Row.volume df := by
  cases df with
  | nil => rfl
  | cons a l => rw [maybeSortByVolume, if_neg (by simp)]

theorem fetch_options_data_eq (src : QuoteSource) (symbols : List String) :
    fetch_options_data src symbols =
      (sortDescBy Row.volume (symbols.flatMap (okRows src)),
       symbols.flatMap (warningsOf src)) := by
  unfold fetch_options_data
  rw [foldl_fetchStep]
  simp only [List.nil_append]
  rw [maybeSortByVolume_eq]

/-- The configured symbol universe `SYMBOLS`. -/
def SYMBOLS : List String :=
  ["AAPL", "TSLA", "MSFT", "AMZN", "SPY", "QQQ", "NVDA", "META", "GOOGL"]

/-- A scenario quote source: exactly TSLA and META raise, every other symbol
returns one single-contract expiry. -/
def twoFailSrc : QuoteSource := fun symbol =>
  if symbol = "TSLA" ∨ symbol = "META" then .error "rate limited"
  else .ok ⟨some 100, [], [⟨"2024-01-19", [⟨100, 7, 1, 2⟩], []⟩]⟩

/-- C6: a per-symbol fetch failure contributes a recorded warning and no
rows while every other symbol's rows are still fetched (the general
equation), and in the 2-of-9 scenario the snapshot is non-empty, built only
from the 7 surviving symbols, with exactly the two warnings. -/
theorem fetch_failure_isolation :
    (∀ (src : QuoteSource) (symbols : List String),
        fetch_options_data src symbols =
          (sortDescBy Row.volume (symbols.flatMap (okRows src)),
           symbols.flatMap (warningsOf src))) ∧
    (fetch_options_data twoFailSrc SYMBOLS).2 =
      [("TSLA", "rate limited"), ("META", "rate limited")] ∧
    (fetch_options_data twoFailSrc SYMBOLS).1.length = 7 ∧
    ((fetch_options_data twoFailSrc SYMBOLS).1.all fun r =>
      !(decide (r.symbol = "TSLA") || decide (r.symbol = "META"))) = true := by
  refine ⟨fetch_options_data_eq, ?_, ?_, ?_⟩
  · decide
  · decide
  · decide

/-- C10: the frame returned by `fetch_options_data` is sorted by the
`Volume` column in descending order. -/
theorem fetch_sorted_by_volume :
    ∀ (src : QuoteSource) (symbols : List String),
      (fetch_options_data src symbols).1.Pairwise
        fun a b => b.volume ≤ a.volume := by
  intro src symbols
  rw [fetch_options_data_eq]
  exact sorted_sortDescBy _ _

/-! The background scheduler `background_fetch_job`. -/

/-- A log line printed by a successful scheduler cycle. -/
inductive LogEntry
  | stored (time : String) (rows : Nat)
  | emptySnapshot
deriving DecidableEq

/-- State threaded through scheduler cycles: the snapshot store, the alert
sink's receipts (one per `send_alerts` call on a non-empty unusual frame),
the normal log lines, and the recorded cycle errors
(`[Scheduler] Error: ...`). -/
structure SchedState where
  store : Store
  alerts : List (List JoinedRow)
  logs : List LogEntry
  errors : List String

/-- The external behaviour of one cycle: the quote source for this pass, an
exception escaping the fetch machinery itself, an exception raised by the
database write, and the cycle's wall-clock label. -/
structure CycleEnv where
  src : QuoteSource
  fetchErr : Option String
  storeErr : Option String
  now : String

/-- The `try:` body of one scheduler cycle; `.error` is an uncaught
exception inside it.  An empty fresh snapshot skips storage and detection;
a store failure aborts the cycle before the write is committed (the
`sqlite3` context manager commits only on success). -/
def cycleBody (env : CycleEnv) (st : SchedState) : Except String SchedState :=
  match env.fetchErr with
  | some e => .error e
  | none =>
    let new_df := (fetch_options_data env.src SYMBOLS).1
    if !new_df.isEmpty then
      match env.storeErr with
      | some e => .error e
      | none =>
        let old_df :=
          match get_latest_snapshot_time st.store with
          | none => []
          | some t => get_snapshot_data st.store t
        let unusual := find_unusual_volume new_df old_df 2 1000
        .ok { store := store_snapshot st.store new_df env.now,
              alerts := if !unusual.isEmpty then st.alerts ++ [unusual]
                        else st.alerts,
              logs := st.logs ++ [.stored env.now new_df.length],
              errors := st.errors }
    else .ok { st with logs := st.logs ++ [.emptySnapshot] }

/-- One full cycle: the `except Exception` handler records the error and
changes nothing else; the cycle always returns, so the loop always reaches
its sleep and the next cycle. -/
def runCycle (env : CycleEnv) (st : SchedState) : SchedState :=
  match cycleBody env st with
  | .ok st' => st'
  | .error e => { st with errors := st.errors ++ [e] }

/-- The `while True:` loop, run over a scheduled sequence of cycle
environments. -/
def runScheduler (envs : List CycleEnv) (st : SchedState) : SchedState :=
  envs.foldl (fun s env => runCycle env s) st

/-- C7: an uncaught failure inside a cycle only appends to the error record
(store, alerts and logs are untouched), every scheduled cycle runs on
whatever state its predecessors left regardless of their outcomes, and a
cycle whose fresh snapshot is empty performs neither storage nor detection,
logging the no-op. -/
theorem scheduler_resilient :
    (∀ (env : CycleEnv) (st : SchedState) (e : String),
        cycleBody env st = .error e →
        runCycle env st = { st with errors := st.errors ++ [e] }) ∧
    (∀ (envs : List CycleEnv) (env : CycleEnv) (st : SchedState),
        runScheduler (envs ++ [env]) st =
          runCycle env (runScheduler envs st)) ∧
    (∀ (env : CycleEnv) (st : SchedState),
        env.fetchErr = none →
        (fetch_options_data env.src SYMBOLS).1 = [] →
        (runCycle env st).store = st.store ∧
        (runCycle env st).alerts = st.alerts ∧
        (runCycle env st).logs = st.logs ++ [.emptySnapshot]) := by
  refine ⟨?_, ?_, ?_⟩
  · intro env st e h
    simp [runCycle, h]
  · intro envs env st
    simp [runScheduler, List.foldl_append]
  · intro env st hf hempty
    simp [runCycle, cycleBody, hf, hempty]

/-- A cycle environment whose fetch machinery raises. -/
def errEnv : CycleEnv :=
  ⟨fun _ => .error "offline", some "boom", none, "2024-01-01 00:00:01"⟩

/-- A cycle environment in which every symbol fails, so the fresh snapshot
is empty. -/
def emptyEnv : CycleEnv :=
  ⟨fun _ => .error "offline", none, none, "2024-01-01 00:00:02"⟩

/-- The initial scheduler state. -/
def st0 : SchedState :=
  ⟨[], [], [], []⟩

/-- Witness for `scheduler_resilient`: a failing cycle followed by an
empty-snapshot cycle from the empty initial state. -/
theorem scheduler_resilient_witness :
    runCycle errEnv st0 = { st0 with errors := st0.errors ++ ["boom"] } ∧
    runScheduler ([errEnv] ++ [emptyEnv]) st0 =
      runCycle emptyEnv (runScheduler [errEnv] st0) ∧
    (runCycle emptyEnv st0).store = st0.store ∧
    (runCycle emptyEnv st0).alerts = st0.alerts ∧
    (runCycle emptyEnv st0).logs = st0.logs ++ [.emptySnapshot] :=
  ⟨scheduler_resilient.1 errEnv st0 "boom" rfl,
   scheduler_resilient.2.1 [errEnv] emptyEnv st0,
   scheduler_resilient.2.2 emptyEnv st0 rfl rfl⟩

/-! The cache-validity predicate. -/

/-- Modelled from the spec: the Cache Coordinator of the spec is realised by
streamlit's `@st.cache_data(ttl=300)` wrapper around `fetch_options_data`,
whose validity test is not part of this repository's source.  Per the spec
contract, `is_valid(last_fetch_time, staleness_window)` holds iff a last
fetch time exists and `now - last_fetch_time` is below the staleness
window. -/
def is_valid (last_fetch_time : Option ℚ) (staleness_window now : ℚ) : Bool :=
  match last_fetch_time with
  | none => false
  | some t => decide (now - t < staleness_window)

/-- C9: `is_valid` is false when no fetch has ever occurred, true exactly
while `now - last_fetch_time` is below the staleness window, and as the
elapsed time `e` grows it flips from true to false exactly at
`e = staleness_window`. -/
theorem cache_is_valid_spec :
    (∀ (w now : ℚ), is_valid none w now = false) ∧
    (∀ (t w now : ℚ), is_valid (some t) w now = true ↔ now - t < w) ∧
    (∀ (t w e : ℚ), is_valid (some t) w (t + e) = decide (e < w)) := by
  refine ⟨fun w now => rfl, fun t w now => by simp [is_valid], fun t w e => ?_⟩
  simp [is_valid, add_sub_cancel_left]

end OptionsFlow
